import Mathlib

/-!
Shallow embedding of the LibreRTOS core: the task scheduler and tick engine
from `src/librertos.c`, and the variable-length data queue from the queue
source file (QueueInit / QueueRead / QueueWrite / pend variants).

Machine integers: `len_t` fields of the queue are `uint8_t`; increments and
sums that the C code performs on them are modelled with an explicit `% 256`.
The tick counter wraps in C, but no claim below depends on the wrap, so it is
modelled as a plain `Nat`.
-/

/-- A task record: `task_t` with its `func`/`param` kept abstract (task
behaviour is passed to the scheduler as a function argument); `id`
distinguishes distinct task objects and `priority` is the field set by
`librertos_create_task`. -/

structure task_t where
  id : Nat
  priority : Nat
deriving DecidableEq, Repr

/-- The global kernel state `librertos_t`: tick counter, current task,
per-priority ready lists and the suspended list, as initialized by
`librertos_init`.  The intrusive doubly linked lists are modelled as Lean
lists (front = `head`).  `schedLockCount` models the scheduler-lock nesting
counter used by the queue code (`SchedulerLock`/`SchedulerUnlock`); its
implementation is not under `src/`, it is modelled from the spec as a
nesting counter. -/

structure Kernel where
  numPriorities : Nat
  tick : Nat
  currentTask : Option task_t
  tasksReady : List (List task_t)
  tasksSuspended : List task_t
  schedLockCount : Nat
deriving DecidableEq, Repr

/-- `librertos_init()`: zero tick, no current task, empty ready lists (one per
priority), empty suspended list. -/

def librertos_init (numPriorities : Nat) : Kernel :=
  { numPriorities := numPriorities
    tick := 0
    currentTask := none
    tasksReady := List.replicate numPriorities []
    tasksSuspended := []
    schedLockCount := 0 }

/-- Append a task at the back of the ready list of index `i`
(`list_insert_last(&librertos.tasks_ready[i], node)`). -/

def readyInsertLast (ls : List (List task_t)) (i : Nat) (t : task_t) : List (List task_t) :=
  ls.set i (ls.getD i [] ++ [t])

/-- `librertos_create_task(priority, task, func, param)`: asserts
`LOW_PRIORITY <= priority <= HIGH_PRIORITY` (modelled as
`0 <= priority <= numPriorities - 1`, the range of the ready-list array), sets
the task's priority field and appends it to the ready list of that priority.
`none` models the non-returning assertion failure. -/

def librertos_create_task (priority : Int) (id : Nat) (k : Kernel) : Option Kernel :=
  if 0 ≤ priority ∧ priority ≤ (k.numPriorities : Int) - 1 then
    some { k with tasksReady := readyInsertLast k.tasksReady priority.toNat ⟨id, priority.toNat⟩ }
  else
    none

/-- `current_priority` as computed at the top of `librertos_sched`:
`-1` when no task is running, else the running task's priority. -/

def currentPriority (k : Kernel) : Int :=
  match k.currentTask with
  | none => -1
  | some t => (t.priority : Int)

/-- The scan of `librertos_sched`'s `for` loop over a (descending) list of
priority indices: return the first index whose ready list is non-empty,
paired with the first node of that list. -/

def schedScan (ready : List (List task_t)) : List Nat → Option (Nat × task_t)
  | [] => none
  | i :: is =>
    match (ready.getD i []).head? with
    | some t => some (i, t)
    | none => schedScan ready is

/-- The descending index sequence of `librertos_sched`'s loop:
`for (i = HIGH_PRIORITY; i > current_priority; i--)`. -/

def descPriorities (n : Nat) (cp : Int) : List Nat :=
  ((List.range n).reverse).filter (fun i => decide (cp < (i : Int)))

/-- The selection performed by `librertos_sched`: highest priority `i` with
`i > current_priority` whose ready list is non-empty, and the first task of
that list. -/

def schedSelect (k : Kernel) (cp : Int) : Option (Nat × task_t) :=
  schedScan k.tasksReady (descPriorities k.numPriorities cp)

/-- State change at a dispatch point of `librertos_sched`: the selected node
is removed from the front of its ready list and re-inserted at the back
(`list_remove` + `list_insert_last`), and `current_task` is set. -/

def schedDispatch (k : Kernel) (i : Nat) (t : task_t) : Kernel :=
  { k with
    tasksReady := k.tasksReady.set i ((k.tasksReady.getD i []).tail ++ [t])
    currentTask := some t }

/-- `librertos_sched()`: in cooperative mode with a task already running it
returns at once; otherwise it searches the ready lists from `HIGH_PRIORITY`
down to `current_priority + 1`, dispatches the first task found (rotating its
ready list, setting `current_task`, running the task function with interrupts
enabled), restores `current_task`, and returns.  The returned list holds the
tasks dispatched by this call (the source returns right after running one).
`coop` is the compile-time `KERNEL_MODE == LIBRERTOS_COOPERATIVE`; `run`
gives the effect of each task's function on the kernel state. -/

def librertos_sched (coop : Bool) (run : task_t → Kernel → Kernel) (k : Kernel) :
    List task_t × Kernel :=
  let cp := currentPriority k
  if coop = true ∧ 0 ≤ cp then
    ([], k)
  else
    match schedSelect k cp with
    | none => ([], k)
    | some (i, t) =>
      let k2 := run t (schedDispatch k i t)
      ([t], { k2 with currentTask := k.currentTask })

/-- `librertos_tick_interrupt()`: enters a critical section, increments
`librertos.tick`, leaves.  Nothing else is read or written. -/

def librertos_tick_interrupt (k : Kernel) : Kernel :=
  { k with tick := k.tick + 1 }

/-- `get_tick()`. -/

def get_tick (k : Kernel) : Nat := k.tick

/-- `get_current_task()`. -/

def get_current_task (k : Kernel) : Option task_t := k.currentTask

/-- Remove a task's scheduler node from whatever list it is on (the effect of
`list_remove(&task->sched_node)` on the kernel lists; in reachable states a
task is on at most one of them). -/

def removeSchedNode (k : Kernel) (t : task_t) : Kernel :=
  { k with
    tasksReady := k.tasksReady.map (List.filter (fun x => decide (x ≠ t)))
    tasksSuspended := k.tasksSuspended.filter (fun x => decide (x ≠ t)) }

/-- `task_suspend(task)`: with a NULL argument the current task is used; the
node is removed from its list and inserted first into `tasks_suspended`.
When the argument is NULL and `current_task` is NULL as well, the code
dereferences a null task pointer (`task->sched_node`); that fault is modelled
as `none`. -/

def task_suspend (arg : Option task_t) (k : Kernel) : Option Kernel :=
  match (match arg with | none => k.currentTask | some t => some t) with
  | none => none
  | some t =>
    let k1 := removeSchedNode k t
    some { k1 with tasksSuspended := t :: k1.tasksSuspended }

/-- `task_resume(task)`: if the task's node is not already on the ready list
of its priority, remove it from its current list and insert it at the back of
that ready list. -/

def task_resume (t : task_t) (k : Kernel) : Kernel :=
  if (k.tasksReady.getD t.priority []).contains t then
    k
  else
    let k1 := removeSchedNode k t
    { k1 with tasksReady := readyInsertLast k1.tasksReady t.priority t }

/-- `SchedulerLock()`.  Modelled from the spec: the scheduler lock is a
nesting counter; locking increments it. -/

def schedulerLock (k : Kernel) : Kernel :=
  { k with schedLockCount := k.schedLockCount + 1 }

/-- `SchedulerUnlock()`.  Modelled from the spec: decrements the nesting
counter.  The possible `sched()` invocation on reaching zero is not modelled
here; it does not read or write any queue field. -/

def schedulerUnlock (k : Kernel) : Kernel :=
  { k with schedLockCount := k.schedLockCount - 1 }

/-- Well-formedness of the kernel state: the ready-list array has one entry
per priority and every task sitting on ready list `i` has priority `i`
(maintained by `librertos_create_task` and `task_resume`, which insert a task
only into the list of its own priority). -/

def WF (k : Kernel) : Prop :=
  k.tasksReady.length = k.numPriorities ∧
  ∀ i < k.numPriorities, ∀ t ∈ k.tasksReady.getD i [], t.priority = i

instance (k : Kernel) : Decidable (WF k) := by
  unfold WF; infer_instance

/-!  The queue (`queue_t`).  Pointers into the item buffer are modelled as
byte offsets from `buff_ptr` (so `buff_ptr` itself is offset `0`), and the
buffer memory as a function from byte offset to byte value. -/

/-- An entry of an event wait list: a task together with its wake deadline
(`none` when pended with `MAX_DELAY`). -/

structure EvTask where
  task : task_t
  deadline : Option Nat
deriving DecidableEq, Repr

/-- `struct queue_t`: counters `free`, `used`, `w_lock`, `r_lock` (all
`len_t`, i.e. `uint8_t`), head/tail/end byte offsets, the buffer memory, and
the event read/write wait lists (`event.list_read` / `event.list_write`). -/

structure queue_t where
  item_size : Nat
  free : Nat
  used : Nat
  w_lock : Nat
  r_lock : Nat
  head_ptr : Nat
  tail_ptr : Nat
  buff_end_ptr : Nat
  buff : Nat → Nat
  list_read : List EvTask
  list_write : List EvTask

/-- Combined state: the kernel singleton plus one queue object (the queue
functions touch the kernel through `SchedulerLock`/`SchedulerUnlock` and
`OSEventUnblockTasks`). -/

structure Sys where
  kernel : Kernel
  q : queue_t

/-- `QueueInit(ptr, buff_ptr, length, item_size)`.  `buff_end_ptr` is the
offset of the last item slot, `(length - 1) * item_size`; head and tail start
at the buffer base; `OSEventRwInit` makes both wait lists empty. -/

def QueueInit (buff : Nat → Nat) (length item_size : Nat) : queue_t :=
  { item_size := item_size
    free := length
    used := 0
    w_lock := 0
    r_lock := 0
    head_ptr := 0
    tail_ptr := 0
    buff_end_ptr := (length - 1) * item_size
    buff := buff
    list_read := []
    list_write := [] }

/-- `memcpy(dest + off, item, n)` on the modelled buffer memory. -/

def writeBytesN (f : Nat → Nat) (off n : Nat) (item : List Nat) : Nat → Nat :=
  fun m => if off ≤ m ∧ m < off + n then item.getD (m - off) 0 else f m

/-- Read `n` bytes starting at offset `off`. -/

def readBytes (f : Nat → Nat) (off n : Nat) : List Nat :=
  (List.range n).map (fun i => f (off + i))

/-- The first critical section of `QueueWrite` after the `free != 0` test
succeeds: capture `pos_ptr = tail_ptr`, advance `tail_ptr` by `item_size`
wrapping past `buff_end_ptr`, capture `lock = w_lock++` and decrement `free`.
Returns `none` exactly when `free == 0` (the failed write). -/

def queueWriteReserve (q : queue_t) : Option (queue_t × Nat × Nat) :=
  if q.free ≠ 0 then
    let pos := q.tail_ptr
    let tail2 := if q.tail_ptr + q.item_size > q.buff_end_ptr then 0
                 else q.tail_ptr + q.item_size
    some ({ q with tail_ptr := tail2, w_lock := (q.w_lock + 1) % 256, free := q.free - 1 },
          pos, q.w_lock)
  else
    none

/-- The commit point of `QueueWrite` after re-entering the critical section:
if this writer's captured `lock` is `0`, publish the in-flight batch
(`used += w_lock; w_lock = 0`, `len_t` arithmetic). -/

def queueWriteCommit (q : queue_t) (lock : Nat) : queue_t :=
  if lock = 0 then { q with used := (q.used + q.w_lock) % 256, w_lock := 0 } else q

/-- The first critical section of `QueueRead` after the `used != 0` test
succeeds: capture `pos_ptr = head_ptr`, advance `head_ptr` with wrap, capture
`lock = r_lock++` and decrement `used`. -/

def queueReadReserve (q : queue_t) : Option (queue_t × Nat × Nat) :=
  if q.used ≠ 0 then
    let pos := q.head_ptr
    let head2 := if q.head_ptr + q.item_size > q.buff_end_ptr then 0
                 else q.head_ptr + q.item_size
    some ({ q with head_ptr := head2, r_lock := (q.r_lock + 1) % 256, used := q.used - 1 },
          pos, q.r_lock)
  else
    none

/-- The commit point of `QueueRead`: if this reader's captured `lock` is `0`,
publish (`free += r_lock; r_lock = 0`). -/

def queueReadCommit (q : queue_t) (lock : Nat) : queue_t :=
  if lock = 0 then { q with free := (q.free + q.r_lock) % 256, r_lock := 0 } else q

/-- `OSEventUnblockTasks(list)`.  Modelled from the spec: removes the head
task of the wait list and re-inserts it into its priority's ready list; one
task per call. -/

def osEventUnblockTasks (l : List EvTask) (k : Kernel) : List EvTask × Kernel :=
  match l with
  | [] => ([], k)
  | e :: rest => (rest, { k with tasksReady := readyInsertLast k.tasksReady e.task.priority e.task })

/-- The `if (ptr->event.list_read.length != 0) OSEventUnblockTasks(...)`
step shared by `QueueWrite` and the phase machine. -/

def unblockReadWaiters (q : queue_t) (k : Kernel) : queue_t × Kernel :=
  if q.list_read.length ≠ 0 then
    let (l2, k2) := osEventUnblockTasks q.list_read k
    ({ q with list_read := l2 }, k2)
  else (q, k)

/-- The `if (ptr->event.list_write.length != 0) OSEventUnblockTasks(...)`
step shared by `QueueRead` and the phase machine. -/

def unblockWriteWaiters (q : queue_t) (k : Kernel) : queue_t × Kernel :=
  if q.list_write.length ≠ 0 then
    let (l2, k2) := osEventUnblockTasks q.list_write k
    ({ q with list_write := l2 }, k2)
  else (q, k)

/-- Abstract actions of a queue operation, used to compare the order of
critical-section and scheduler-lock events of `QueueRead` and `QueueWrite`. -/

inductive Act where
  | critEnter
  | critExit
  | reserve
  | copy
  | publish
  | schedLock
  | schedUnlock
  | unblock
deriving DecidableEq, Repr

/-- `QueueWrite(ptr, buff_ptr)` with its action trace: enter the critical
section; if `free == 0` fail; otherwise reserve the tail slot, take the
scheduler lock, exit the critical section, copy the item, re-enter, commit,
unblock a task waiting on `list_read` if any, exit, release the scheduler
lock. -/

def QueueWriteT (s : Sys) (item : List Nat) : Bool × Sys × List Act :=
  match queueWriteReserve s.q with
  | none => (false, s, [Act.critEnter, Act.critExit])
  | some (q1, pos, lock) =>
    let k1 := schedulerLock s.kernel
    let q2 := { q1 with buff := writeBytesN q1.buff pos q1.item_size item }
    let q3 := queueWriteCommit q2 lock
    let (q4, k2) := unblockReadWaiters q3 k1
    (true, ⟨schedulerUnlock k2, q4⟩,
      [Act.critEnter, Act.reserve, Act.schedLock, Act.critExit, Act.copy, Act.critEnter] ++
        (if lock = 0 then [Act.publish] else []) ++
        (if q3.list_read.length ≠ 0 then [Act.unblock] else []) ++
        [Act.critExit, Act.schedUnlock])

/-- `QueueWrite` result and state (trace dropped). -/

def QueueWrite (s : Sys) (item : List Nat) : Bool × Sys :=
  ((QueueWriteT s item).1, (QueueWriteT s item).2.1)

/-- `QueueRead(ptr, buff_ptr)` with its action trace: enter the critical
section; if `used == 0` fail; otherwise reserve the head slot, exit the
critical section, copy the item out, re-enter, commit, take the scheduler
lock, unblock a task waiting on `list_write` if any, exit, release the
scheduler lock. -/

def QueueReadT (s : Sys) : Bool × List Nat × Sys × List Act :=
  match queueReadReserve s.q with
  | none => (false, [], s, [Act.critEnter, Act.critExit])
  | some (q1, pos, lock) =>
    let out := readBytes q1.buff pos q1.item_size
    let q2 := queueReadCommit q1 lock
    let k1 := schedulerLock s.kernel
    let (q3, k2) := unblockWriteWaiters q2 k1
    (true, out, ⟨schedulerUnlock k2, q3⟩,
      [Act.critEnter, Act.reserve, Act.critExit, Act.copy, Act.critEnter] ++
        (if lock = 0 then [Act.publish] else []) ++
        ([Act.schedLock] ++ (if q2.list_write.length ≠ 0 then [Act.unblock] else [])) ++
        [Act.critExit, Act.schedUnlock])

/-- `QueueRead` result, output item and state (trace dropped). -/

def QueueRead (s : Sys) : Bool × List Nat × Sys :=
  ((QueueReadT s).1, (QueueReadT s).2.1, (QueueReadT s).2.2.1)

/-- `QueueUsed(ptr)`. -/

def QueueUsed (q : queue_t) : Nat := q.used

/-- `QueueFree(ptr)`. -/

def QueueFree (q : queue_t) : Nat := q.free

/-- `QueueLength(ptr)`: `(len_t)(free + used + w_lock + r_lock)`. -/

def QueueLength (q : queue_t) : Nat :=
  (q.free + q.used + q.w_lock + q.r_lock) % 256

/-- `QueueItemSize(ptr)`. -/

def QueueItemSize (q : queue_t) : Nat := q.item_size

/-- `QueueEmpty(ptr)`. -/

def QueueEmpty (q : queue_t) : Bool := QueueUsed q = 0

/-- `QueueFull(ptr)`. -/

def QueueFull (q : queue_t) : Bool := QueueFree q = 0

/-- `MAX_DELAY`: sentinel tick count meaning "wait indefinitely".  Modelled
from the spec; its numeric value (the maximum of `tick_t`, whose width is not
under `src/`) is irrelevant to the claims below. -/

def MAX_DELAY : Nat := 65535

/-- `OSEventPrePendTask(list, task)`.  Modelled from the spec: detaches the
task's event node from any prior wait list, preparing it for insertion. -/

def osEventPrePendTask (l : List EvTask) (t : task_t) : List EvTask :=
  l.filter (fun e => decide (e.task ≠ t))

/-- `OSEventPendTask(list, task, ticks_to_wait)`.  Modelled from the spec:
inserts the event node at the back of the wait list (FIFO), sets the wake
deadline to `tick + ticks_to_wait` (no deadline for `MAX_DELAY`), and removes
the task's scheduler node from its ready list. -/

def osEventPendTask (l : List EvTask) (t : task_t) (ticks : Nat) (k : Kernel) :
    List EvTask × Kernel :=
  (l ++ [⟨t, if ticks = MAX_DELAY then none else some (k.tick + ticks)⟩],
   { k with tasksReady := k.tasksReady.map (List.filter (fun x => decide (x ≠ t))) })

/-- `QueuePendRead(ptr, ticks_to_wait)`: with a non-zero timeout, take the
scheduler lock, disable interrupts, re-check `used == 0`, and if the queue is
still empty pre-pend and pend the current task on `event.list_read`.  Called
only by tasks; if no task is current the state is returned unchanged (the C
code would dereference NULL). -/

def QueuePendRead (s : Sys) (ticks : Nat) : Sys :=
  if ticks ≠ 0 then
    let k1 := schedulerLock s.kernel
    if s.q.used = 0 then
      match k1.currentTask with
      | some t =>
        let l1 := osEventPrePendTask s.q.list_read t
        let (l2, k2) := osEventPendTask l1 t ticks k1
        ⟨schedulerUnlock k2, { s.q with list_read := l2 }⟩
      | none => ⟨schedulerUnlock k1, s.q⟩
    else ⟨schedulerUnlock k1, s.q⟩
  else s

/-- `QueuePendWrite(ptr, ticks_to_wait)`: symmetric, re-checks `free == 0`
and pends on `event.list_write`. -/

def QueuePendWrite (s : Sys) (ticks : Nat) : Sys :=
  if ticks ≠ 0 then
    let k1 := schedulerLock s.kernel
    if s.q.free = 0 then
      match k1.currentTask with
      | some t =>
        let l1 := osEventPrePendTask s.q.list_write t
        let (l2, k2) := osEventPendTask l1 t ticks k1
        ⟨schedulerUnlock k2, { s.q with list_write := l2 }⟩
      | none => ⟨schedulerUnlock k1, s.q⟩
    else ⟨schedulerUnlock k1, s.q⟩
  else s

/-- `QueueReadPend(ptr, buff_ptr, ticks_to_wait)`: one non-blocking
`QueueRead`; if it failed, `QueuePendRead`; return the non-blocking result. -/

def QueueReadPend (s : Sys) (ticks : Nat) : Bool × List Nat × Sys :=
  let r := QueueRead s
  if r.1 = false then (r.1, r.2.1, QueuePendRead r.2.2 ticks) else r

/-- `QueueWritePend(ptr, buff_ptr, ticks_to_wait)`: one non-blocking
`QueueWrite`; if it failed, `QueuePendWrite`; return the non-blocking
result. -/

def QueueWritePend (s : Sys) (item : List Nat) (ticks : Nat) : Bool × Sys :=
  let r := QueueWrite s item
  if r.1 = false then (r.1, QueuePendWrite r.2 ticks) else r

/-- `librertos_tick_interrupt` lifted to a combined state: the C function
reads and writes only the kernel singleton, never a queue object. -/

def tickSys (s : Sys) : Sys :=
  { s with kernel := librertos_tick_interrupt s.kernel }

/-- Modelled from the spec: the mutex (its implementation file is not under
`src/`, only its tests are): a binary lock with a `count` attribute, 0 =
unlocked, 1 = locked. -/

structure mutex_t where
  count : Nat
deriving DecidableEq, Repr

/-- Modelled from the spec: `mutex_init`: `count = 0`. -/

def mutex_init : mutex_t := ⟨0⟩

/-- Modelled from the spec: `mutex_lock`: fails if `count != 0`; otherwise
sets `count = 1` and returns success. -/

def mutex_lock (m : mutex_t) : Bool × mutex_t :=
  if m.count ≠ 0 then (false, m) else (true, ⟨1⟩)

/-- Modelled from the spec: `mutex_unlock`: fails if `count == 0`; otherwise
clears `count` and returns success. -/

def mutex_unlock (m : mutex_t) : Bool × mutex_t :=
  if m.count = 0 then (false, m) else (true, ⟨0⟩)

/-- Modelled from the spec: `mutex_islocked`: reports `count`. -/

def mutex_islocked (m : mutex_t) : Nat := m.count

/-!  Interleaving machine for the queue's two-phase protocol.  A step is one
critical-section-delimited chunk of `QueueRead`/`QueueWrite`: `beginW`/
`beginR` run the reservation critical section (a no-op when the operation
fails its `free`/`used` test), `endW`/`endR` perform the out-of-critical
copy of the `i`-th in-flight operation followed by its commit critical
section.  Any interleaving of concurrent readers and writers is a list of
such steps. -/

/-- One phase step of an in-flight queue operation. -/

inductive QOp where
  | beginW
  | endW (i : Nat) (item : List Nat)
  | beginR
  | endR (i : Nat)

/-- Machine state: the system plus the `(pos, lock)` pairs captured by
in-flight writers and readers that have reserved but not yet committed. -/

structure MState where
  sys : Sys
  wPend : List (Nat × Nat)
  rPend : List (Nat × Nat)

/-- One machine step. -/

def mstep (m : MState) : QOp → MState
  | QOp.beginW =>
    match queueWriteReserve m.sys.q with
    | none => m
    | some (q1, pos, lock) =>
      { sys := ⟨schedulerLock m.sys.kernel, q1⟩
        wPend := m.wPend ++ [(pos, lock)], rPend := m.rPend }
  | QOp.endW i item =>
    match m.wPend[i]? with
    | none => m
    | some (pos, lock) =>
      let q2 := { m.sys.q with buff := writeBytesN m.sys.q.buff pos m.sys.q.item_size item }
      let q3 := queueWriteCommit q2 lock
      let (q4, k2) := unblockReadWaiters q3 m.sys.kernel
      { sys := ⟨schedulerUnlock k2, q4⟩, wPend := m.wPend.eraseIdx i, rPend := m.rPend }
  | QOp.beginR =>
    match queueReadReserve m.sys.q with
    | none => m
    | some (q1, pos, lock) =>
      { sys := ⟨m.sys.kernel, q1⟩
        wPend := m.wPend, rPend := m.rPend ++ [(pos, lock)] }
  | QOp.endR i =>
    match m.rPend[i]? with
    | none => m
    | some (_, lock) =>
      let q2 := queueReadCommit m.sys.q lock
      let k1 := schedulerLock m.sys.kernel
      let (q3, k2) := unblockWriteWaiters q2 k1
      { sys := ⟨schedulerUnlock k2, q3⟩, wPend := m.wPend, rPend := m.rPend.eraseIdx i }

/-- Machine start state: a freshly initialized queue, no in-flight
operations. -/

def initMState (k : Kernel) (buff : Nat → Nat) (length item_size : Nat) : MState :=
  ⟨⟨k, QueueInit buff length item_size⟩, [], []⟩

/-- Run a sequence of phase steps. -/

def runQOps (m : MState) (ops : List QOp) : MState := ops.foldl mstep m

/-- The counter sum of the queue invariant. -/

def counterSum (q : queue_t) : Nat := q.used + q.free + q.w_lock + q.r_lock

/-!  Proofs. -/

/-- Kernel states reachable from `librertos_init` through the kernel API and
the queue operations.  The task functions run by `librertos_sched` are
constrained to preserve well-formedness of the ready lists, which every
kernel API call does. -/

inductive Reachable : Kernel → Prop where
  | init (n : Nat) : Reachable (librertos_init n)
  | create {k k' : Kernel} (p : Int) (id : Nat) : Reachable k →
      librertos_create_task p id k = some k' → Reachable k'
  | suspend {k k' : Kernel} (arg : Option task_t) : Reachable k →
      task_suspend arg k = some k' → Reachable k'
  | resume {k : Kernel} (t : task_t) : Reachable k → Reachable (task_resume t k)
  | tick {k : Kernel} : Reachable k → Reachable (librertos_tick_interrupt k)
  | schedDone {k : Kernel} (coop : Bool) (run : task_t → Kernel → Kernel) :
      Reachable k → (∀ t k0, WF k0 → WF (run t k0)) →
      Reachable (librertos_sched coop run k).2
  | dispatch {k : Kernel} (i : Nat) (t : task_t) : Reachable k →
      schedSelect k (currentPriority k) = some (i, t) →
      Reachable (schedDispatch k i t)
  | qwrite {k : Kernel} (q : queue_t) (item : List Nat) : Reachable k →
      Reachable ((QueueWrite ⟨k, q⟩ item).2).kernel
  | qread {k : Kernel} (q : queue_t) : Reachable k →
      Reachable ((QueueRead ⟨k, q⟩).2.2).kernel
  | qpendRead {k : Kernel} (q : queue_t) (ticks : Nat) : Reachable k →
      Reachable (QueuePendRead ⟨k, q⟩ ticks).kernel
  | qpendWrite {k : Kernel} (q : queue_t) (ticks : Nat) : Reachable k →
      Reachable (QueuePendWrite ⟨k, q⟩ ticks).kernel

/-- Example kernel state: task `⟨0, 0⟩` ready at priority 0 and task `⟨1, 1⟩`
ready at priority 1, nothing running (reachable by `librertos_init 2`
followed by two `librertos_create_task` calls). -/

def kTwoTasks : Kernel :=
  { numPriorities := 2
    tick := 0
    currentTask := none
    tasksReady := [[⟨0, 0⟩], [⟨1, 1⟩]]
    tasksSuspended := []
    schedLockCount := 0 }

/-- Intermediate state on the way to `kTwoTasks`: only the priority-0 task
has been created. -/

def kOneTask : Kernel :=
  { numPriorities := 2
    tick := 0
    currentTask := none
    tasksReady := [[⟨0, 0⟩], []]
    tasksSuspended := []
    schedLockCount := 0 }

/-- The task behaviour used by the C5 counterexample: the task suspends
itself (via `task_suspend`) and returns. -/

def runSelfSuspend (t : task_t) (k : Kernel) : Kernel :=
  (task_suspend (some t) k).getD k

/-- Combined example state for C4: task `⟨0, 0⟩` pended on the queue's read
wait list with wake deadline 5, kernel tick already at 10, priority-0 ready
list empty. -/

def sPended : Sys :=
  { kernel :=
      { numPriorities := 1
        tick := 10
        currentTask := none
        tasksReady := [[]]
        tasksSuspended := []
        schedLockCount := 0 }
    q :=
      { item_size := 1
        free := 1
        used := 0
        w_lock := 0
        r_lock := 0
        head_ptr := 0
        tail_ptr := 0
        buff_end_ptr := 0
        buff := fun _ => 0
        list_read := [⟨⟨0, 0⟩, some 5⟩]
        list_write := [] } }

/-- Kernel of the C7 example: one priority, task `⟨0, 0⟩` is the current
(running) task and is on its ready list. -/

def kRunning : Kernel :=
  { numPriorities := 1
    tick := 0
    currentTask := some ⟨0, 0⟩
    tasksReady := [[⟨0, 0⟩]]
    tasksSuspended := []
    schedLockCount := 0 }

/-- C7 example: the running task faces an empty queue of capacity 1. -/

def sEmptyQueue : Sys :=
  { kernel := kRunning
    q :=
      { item_size := 1
        free := 1
        used := 0
        w_lock := 0
        r_lock := 0
        head_ptr := 0
        tail_ptr := 0
        buff_end_ptr := 0
        buff := fun _ => 0
        list_read := []
        list_write := [] } }

/-- C9 example: a queue of capacity 2 holding one item, no in-flight
operations, no waiters. -/

def sHalfFull : Sys :=
  { kernel := librertos_init 1
    q :=
      { item_size := 1
        free := 1
        used := 1
        w_lock := 0
        r_lock := 0
        head_ptr := 0
        tail_ptr := 1
        buff_end_ptr := 1
        buff := fun _ => 9
        list_read := []
        list_write := [] } }

/-- C6 scenario: freshly initialized queue of length 2, item size 1. -/

def sLen2 : Sys :=
  { kernel := librertos_init 1, q := QueueInit (fun _ => 0) 2 1 }

/-- C6 scenario after writing item A (10). -/

def sWroteA : Sys := (QueueWrite sLen2 [10]).2

/-- C6 scenario after also writing item B (11): the queue is full. -/

def sWroteAB : Sys := (QueueWrite sWroteA [11]).2

/-- C6 scenario after reading A back out of the full queue. -/

def sReadA : Sys := (QueueRead sWroteAB).2.2

/-- C6 scenario after the retried write of item C (12) succeeded. -/

def sWroteC : Sys := (QueueWrite sReadA [12]).2

/-- C6 scenario after reading B. -/

def sReadB : Sys := (QueueRead sWroteC).2.2

/-- C6 scenario after reading C: the queue is empty again. -/

def sReadC : Sys := (QueueRead sReadB).2.2

/-- Abstraction relation for the sequential queue: the queue `q` (capacity
`cap`, item size `isz`, read position at slot index `hIdx`) holds exactly the
items of `ys`, in FIFO order, with no operation in flight and no waiters. -/

def QRel (cap isz hIdx : Nat) (ys : List (List Nat)) (q : queue_t) : Prop :=
  q.item_size = isz ∧
  q.free = cap - ys.length ∧
  q.used = ys.length ∧
  q.w_lock = 0 ∧
  q.r_lock = 0 ∧
  q.buff_end_ptr = (cap - 1) * isz ∧
  q.head_ptr = hIdx * isz ∧
  q.tail_ptr = ((hIdx + ys.length) % cap) * isz ∧
  hIdx < cap ∧
  ys.length ≤ cap ∧
  q.list_read = [] ∧
  q.list_write = [] ∧
  ∀ j < ys.length, readBytes q.buff (((hIdx + j) % cap) * isz) isz = ys.getD j []

/-- A sequence of `QueueWrite` calls; returns the conjunction of their
results and the final state. -/

def writeAll (s : Sys) : List (List Nat) → Bool × Sys
  | [] => (true, s)
  | x :: xs =>
    let r := QueueWrite s x
    let r2 := writeAll r.2 xs
    (r.1 && r2.1, r2.2)

/-- `n` consecutive `QueueRead` calls; returns the items copied out and the
final state. -/

def readN (s : Sys) : Nat → List (List Nat) × Sys
  | 0 => ([], s)
  | n + 1 =>
    let r := QueueRead s
    let r2 := readN r.2.2 n
    (r.2.1 :: r2.1, r2.2)

lemma counterSum_unblockReadWaiters (q : queue_t) (k : Kernel) :
    counterSum (unblockReadWaiters q k).1 = counterSum q := by
  unfold unblockReadWaiters osEventUnblockTasks
  cases hl : q.list_read <;> simp [counterSum, hl]

lemma counterSum_unblockWriteWaiters (q : queue_t) (k : Kernel) :
    counterSum (unblockWriteWaiters q k).1 = counterSum q := by
  unfold unblockWriteWaiters osEventUnblockTasks
  cases hl : q.list_write <;> simp [counterSum, hl]

lemma counterSum_queueWriteCommit (cap : Nat) (hcap : cap ≤ 255) (q : queue_t) (lock : Nat)
    (h : counterSum q = cap) : counterSum (queueWriteCommit q lock) = cap := by
  unfold queueWriteCommit
  split
  · unfold counterSum at h ⊢
    dsimp only
    rw [Nat.mod_eq_of_lt (by omega)]
    omega
  · exact h

lemma counterSum_queueReadCommit (cap : Nat) (hcap : cap ≤ 255) (q : queue_t) (lock : Nat)
    (h : counterSum q = cap) : counterSum (queueReadCommit q lock) = cap := by
  unfold queueReadCommit
  split
  · unfold counterSum at h ⊢
    dsimp only
    rw [Nat.mod_eq_of_lt (by omega)]
    omega
  · exact h

lemma counterSum_mstep (cap : Nat) (hcap : cap ≤ 255) (m : MState)
    (h : counterSum m.sys.q = cap) (op : QOp) :
    counterSum (mstep m op).sys.q = cap := by
  cases op with
  | beginW =>
    simp only [mstep]
    cases hr : queueWriteReserve m.sys.q with
    | none => exact h
    | some x =>
      obtain ⟨q1, pos, lock⟩ := x
      unfold queueWriteReserve at hr
      split at hr
      · simp only [Option.some.injEq, Prod.mk.injEq] at hr
        obtain ⟨hq1, -, -⟩ := hr
        subst hq1
        unfold counterSum at h ⊢
        dsimp only
        rw [Nat.mod_eq_of_lt (by omega)]
        omega
      · exact absurd hr (by simp)
  | endW i item =>
    simp only [mstep]
    cases hr : m.wPend[i]? with
    | none => exact h
    | some x =>
      obtain ⟨pos, lock⟩ := x
      have h2 : counterSum { m.sys.q with
          buff := writeBytesN m.sys.q.buff pos m.sys.q.item_size item } = cap := by
        unfold counterSum at h ⊢; exact h
      have h3 := counterSum_queueWriteCommit cap hcap _ lock h2
      rcases hu : unblockReadWaiters (queueWriteCommit { m.sys.q with
          buff := writeBytesN m.sys.q.buff pos m.sys.q.item_size item } lock)
          m.sys.kernel with ⟨q4, k2⟩
      have h4 := counterSum_unblockReadWaiters (queueWriteCommit { m.sys.q with
          buff := writeBytesN m.sys.q.buff pos m.sys.q.item_size item } lock) m.sys.kernel
      rw [hu] at h4
      simp only [hu]
      exact h4.trans h3
  | beginR =>
    simp only [mstep]
    cases hr : queueReadReserve m.sys.q with
    | none => exact h
    | some x =>
      obtain ⟨q1, pos, lock⟩ := x
      unfold queueReadReserve at hr
      split at hr
      · simp only [Option.some.injEq, Prod.mk.injEq] at hr
        obtain ⟨hq1, -, -⟩ := hr
        subst hq1
        unfold counterSum at h ⊢
        dsimp only
        rw [Nat.mod_eq_of_lt (by omega)]
        omega
      · exact absurd hr (by simp)
  | endR i =>
    simp only [mstep]
    cases hr : m.rPend[i]? with
    | none => exact h
    | some x =>
      obtain ⟨pos, lock⟩ := x
      have h3 := counterSum_queueReadCommit cap hcap m.sys.q lock h
      rcases hu : unblockWriteWaiters (queueReadCommit m.sys.q lock)
          (schedulerLock m.sys.kernel) with ⟨q3, k2⟩
      have h4 := counterSum_unblockWriteWaiters (queueReadCommit m.sys.q lock)
          (schedulerLock m.sys.kernel)
      rw [hu] at h4
      simp only [hu]
      exact h4.trans h3

lemma counterSum_runQOps (cap : Nat) (hcap : cap ≤ 255) (ops : List QOp) (m : MState)
    (h : counterSum m.sys.q = cap) : counterSum (runQOps m ops).sys.q = cap := by
  induction ops generalizing m with
  | nil => exact h
  | cons op ops ih => exact ih (mstep m op) (counterSum_mstep cap hcap m h op)

/-- Claim C1: for every sequence of queue phase steps (successful or failed
reservations, commits of any in-flight operation, i.e. every interleaving of
`QueueRead`/`QueueWrite` at critical-section granularity) starting from
`QueueInit` with a capacity that fits in `len_t`, the sum
`used + free + w_lock + r_lock` equals the capacity at every
critical-section boundary, and `QueueLength` returns that constant
capacity. -/
theorem c1_queue_counter_invariant (k : Kernel) (buff : Nat → Nat)
    (length item_size : Nat) (hlen : length ≤ 255) (ops : List QOp) :
    counterSum (runQOps (initMState k buff length item_size) ops).sys.q = length ∧
    QueueLength (runQOps (initMState k buff length item_size) ops).sys.q = length := by
  have h0 : counterSum (initMState k buff length item_size).sys.q = length := by
    simp [counterSum, initMState, QueueInit]
  have hsum := counterSum_runQOps length hlen ops _ h0
  refine ⟨hsum, ?_⟩
  unfold QueueLength
  unfold counterSum at hsum
  rw [Nat.mod_eq_of_lt (by omega)]
  omega

/-- Witness for C10: the state right after `librertos_init`, before any task
is dispatched, has `current_task == NULL`, and `task_suspend(NULL)` faults
there. -/
theorem c1_queue_counter_invariant_witness :
    (3 ≤ 255) ∧
    (counterSum (runQOps (initMState (librertos_init 1) (fun _ => 0) 3 1)
        [QOp.beginR, QOp.beginW, QOp.beginW, QOp.endW 1 [7], QOp.beginR,
         QOp.endW 0 [5], QOp.endR 0]).sys.q = 3 ∧
     QueueLength (runQOps (initMState (librertos_init 1) (fun _ => 0) 3 1)
        [QOp.beginR, QOp.beginW, QOp.beginW, QOp.endW 1 [7], QOp.beginR,
         QOp.endW 0 [5], QOp.endR 0]).sys.q = 3) :=
  ⟨by decide,
   c1_queue_counter_invariant (librertos_init 1) (fun _ => 0) 3 1 (by decide)
     [QOp.beginR, QOp.beginW, QOp.beginW, QOp.endW 1 [7], QOp.beginR,
      QOp.endW 0 [5], QOp.endR 0]⟩

lemma mem_getD_set (ls : List (List task_t)) (j : Nat) (v : List task_t) (i : Nat)
    (t : task_t) (h : t ∈ (ls.set j v).getD i []) :
    (i = j ∧ t ∈ v) ∨ t ∈ ls.getD i [] := by
  rw [List.getD_eq_getElem?_getD] at h
  by_cases hij : i = j
  · subst hij
    by_cases hlt : i < ls.length
    · rw [List.getElem?_set_eq_of_lt v hlt] at h
      simp at h
      exact Or.inl ⟨rfl, h⟩
    · rw [List.set_eq_of_length_le (by omega)] at h
      exact Or.inr (by rwa [List.getD_eq_getElem?_getD])
  · rw [List.getElem?_set_ne (by omega)] at h
    exact Or.inr (by rwa [List.getD_eq_getElem?_getD])

lemma mem_getD_map_filter (ls : List (List task_t)) (p : task_t → Bool) (i : Nat)
    (t : task_t) (h : t ∈ (ls.map (List.filter p)).getD i []) : t ∈ ls.getD i [] := by
  rw [List.getD_eq_getElem?_getD, List.getElem?_map] at h
  cases hl : ls[i]? with
  | none => rw [hl] at h; simp at h
  | some l =>
    rw [hl] at h
    simp only [Option.map_some', Option.getD_some] at h
    rw [List.getD_eq_getElem?_getD, hl]
    exact List.mem_of_mem_filter h

lemma wf_set_insert {k : Kernel} (h : WF k) (i : Nat) (v : List task_t)
    (hv : ∀ t ∈ v, t ∈ k.tasksReady.getD i [] ∨ t.priority = i) :
    WF { k with tasksReady := k.tasksReady.set i v } := by
  obtain ⟨hlen, hmem⟩ := h
  refine ⟨by simpa [List.length_set] using hlen, ?_⟩
  intro j hj t ht
  rcases mem_getD_set _ _ _ _ _ ht with ⟨rfl, htv⟩ | hold
  · rcases hv t htv with hin | hp
    · exact hmem j hj t hin
    · exact hp
  · exact hmem j hj t hold

lemma wf_readyInsertLast {k : Kernel} (h : WF k) (i : Nat) (t : task_t)
    (hp : t.priority = i) :
    WF { k with tasksReady := readyInsertLast k.tasksReady i t } := by
  refine wf_set_insert h i _ ?_
  intro x hx
  rcases List.mem_append.mp hx with hin | hone
  · exact Or.inl hin
  · simp at hone
    subst hone
    exact Or.inr hp

lemma wf_filter_ready {k : Kernel} (h : WF k) (p : task_t → Bool)
    (sus : List task_t) (cur : Option task_t) (tick slc : Nat) :
    WF { numPriorities := k.numPriorities, tick := tick, currentTask := cur,
         tasksReady := k.tasksReady.map (List.filter p),
         tasksSuspended := sus, schedLockCount := slc } := by
  obtain ⟨hlen, hmem⟩ := h
  refine ⟨by simpa [List.length_map] using hlen, ?_⟩
  intro j hj t ht
  exact hmem j hj t (mem_getD_map_filter _ _ _ _ ht)

lemma wf_librertos_init (n : Nat) : WF (librertos_init n) := by
  refine ⟨by simp [librertos_init], ?_⟩
  intro i hi t ht
  rw [librertos_init] at ht
  dsimp at ht
  rw [List.getD_eq_getElem?_getD, List.getElem?_replicate] at ht
  split at ht <;> simp at ht

lemma wf_removeSchedNode {k : Kernel} (h : WF k) (t : task_t) :
    WF (removeSchedNode k t) :=
  wf_filter_ready h _ _ _ _ _

lemma wf_librertos_create_task {k k' : Kernel} {p : Int} {id : Nat} (h : WF k)
    (hc : librertos_create_task p id k = some k') : WF k' := by
  unfold librertos_create_task at hc
  split at hc
  · simp only [Option.some.injEq] at hc
    subst hc
    exact wf_readyInsertLast h _ _ rfl
  · exact absurd hc (by simp)

lemma wf_task_suspend {k k' : Kernel} {arg : Option task_t} (h : WF k)
    (hs : task_suspend arg k = some k') : WF k' := by
  unfold task_suspend at hs
  cases harg : (match arg with | none => k.currentTask | some t => some t) with
  | none => rw [harg] at hs; exact absurd hs (by simp)
  | some t =>
    rw [harg] at hs
    simp only [Option.some.injEq] at hs
    subst hs
    have h1 := wf_removeSchedNode h t
    exact ⟨h1.1, h1.2⟩

lemma wf_task_resume {k : Kernel} (h : WF k) (t : task_t) : WF (task_resume t k) := by
  unfold task_resume
  split
  · exact h
  · exact wf_readyInsertLast (wf_removeSchedNode h t) _ _ rfl

lemma wf_librertos_tick_interrupt {k : Kernel} (h : WF k) :
    WF (librertos_tick_interrupt k) := ⟨h.1, h.2⟩

lemma wf_schedulerLock {k : Kernel} (h : WF k) : WF (schedulerLock k) := ⟨h.1, h.2⟩

lemma wf_schedulerUnlock {k : Kernel} (h : WF k) : WF (schedulerUnlock k) := ⟨h.1, h.2⟩

lemma wf_osEventUnblockTasks {k : Kernel} (h : WF k) (l : List EvTask) :
    WF (osEventUnblockTasks l k).2 := by
  unfold osEventUnblockTasks
  cases l with
  | nil => exact h
  | cons e rest => exact wf_readyInsertLast h _ _ rfl

lemma wf_osEventPendTask {k : Kernel} (h : WF k) (l : List EvTask) (t : task_t)
    (ticks : Nat) : WF (osEventPendTask l t ticks k).2 :=
  wf_filter_ready h _ _ _ _ _

lemma wf_unblockReadWaiters {k : Kernel} (h : WF k) (q : queue_t) :
    WF (unblockReadWaiters q k).2 := by
  unfold unblockReadWaiters
  split
  · rcases hu : osEventUnblockTasks q.list_read k with ⟨l2, k2⟩
    have := wf_osEventUnblockTasks h q.list_read
    rw [hu] at this
    simpa using this
  · exact h

lemma wf_unblockWriteWaiters {k : Kernel} (h : WF k) (q : queue_t) :
    WF (unblockWriteWaiters q k).2 := by
  unfold unblockWriteWaiters
  split
  · rcases hu : osEventUnblockTasks q.list_write k with ⟨l2, k2⟩
    have := wf_osEventUnblockTasks h q.list_write
    rw [hu] at this
    simpa using this
  · exact h

lemma wf_QueueWrite_kernel {k : Kernel} (h : WF k) (q : queue_t) (item : List Nat) :
    WF ((QueueWrite ⟨k, q⟩ item).2).kernel := by
  unfold QueueWrite QueueWriteT
  cases hr : queueWriteReserve (Sys.mk k q).q with
  | none => exact h
  | some x =>
    obtain ⟨q1, pos, lock⟩ := x
    dsimp only
    rcases hu : unblockReadWaiters
        (queueWriteCommit { q1 with buff := writeBytesN q1.buff pos q1.item_size item } lock)
        (schedulerLock (Sys.mk k q).kernel) with ⟨q4, k2⟩
    have h2 := wf_unblockReadWaiters (wf_schedulerLock h)
      (queueWriteCommit { q1 with buff := writeBytesN q1.buff pos q1.item_size item } lock)
    rw [hu] at h2
    exact wf_schedulerUnlock h2

lemma wf_QueueRead_kernel {k : Kernel} (h : WF k) (q : queue_t) :
    WF ((QueueRead ⟨k, q⟩).2.2).kernel := by
  unfold QueueRead QueueReadT
  cases hr : queueReadReserve (Sys.mk k q).q with
  | none => exact h
  | some x =>
    obtain ⟨q1, pos, lock⟩ := x
    dsimp only
    rcases hu : unblockWriteWaiters (queueReadCommit q1 lock)
        (schedulerLock (Sys.mk k q).kernel) with ⟨q3, k2⟩
    have h2 := wf_unblockWriteWaiters (wf_schedulerLock h) (queueReadCommit q1 lock)
    rw [hu] at h2
    exact wf_schedulerUnlock h2

lemma wf_QueuePendRead_kernel {k : Kernel} (h : WF k) (q : queue_t) (ticks : Nat) :
    WF (QueuePendRead ⟨k, q⟩ ticks).kernel := by
  unfold QueuePendRead
  split
  · dsimp only
    split
    · cases hc : (schedulerLock (Sys.mk k q).kernel).currentTask with
      | some t =>
        exact wf_schedulerUnlock
          (wf_osEventPendTask (wf_schedulerLock h) (osEventPrePendTask q.list_read t) t ticks)
      | none => exact wf_schedulerUnlock (wf_schedulerLock h)
    · exact wf_schedulerUnlock (wf_schedulerLock h)
  · exact h

lemma wf_QueuePendWrite_kernel {k : Kernel} (h : WF k) (q : queue_t) (ticks : Nat) :
    WF (QueuePendWrite ⟨k, q⟩ ticks).kernel := by
  unfold QueuePendWrite
  split
  · dsimp only
    split
    · cases hc : (schedulerLock (Sys.mk k q).kernel).currentTask with
      | some t =>
        exact wf_schedulerUnlock
          (wf_osEventPendTask (wf_schedulerLock h) (osEventPrePendTask q.list_write t) t ticks)
      | none => exact wf_schedulerUnlock (wf_schedulerLock h)
    · exact wf_schedulerUnlock (wf_schedulerLock h)
  · exact h

lemma schedScan_eq_some {ready : List (List task_t)} {l : List Nat} {i : Nat}
    {t : task_t} (h : schedScan ready l = some (i, t)) :
    i ∈ l ∧ t ∈ ready.getD i [] := by
  induction l with
  | nil => simp [schedScan] at h
  | cons j js ih =>
    rw [schedScan] at h
    cases hh : (ready.getD j []).head? with
    | some u =>
      rw [hh] at h
      simp only [Option.some.injEq, Prod.mk.injEq] at h
      obtain ⟨rfl, rfl⟩ := h
      refine ⟨List.mem_cons_self _ _, ?_⟩
      cases hcl : ready.getD j [] with
      | nil => rw [hcl] at hh; simp at hh
      | cons a as => rw [hcl] at hh; simp at hh; simp [hh]
    | none =>
      rw [hh] at h
      obtain ⟨h1, h2⟩ := ih h
      exact ⟨List.mem_cons_of_mem _ h1, h2⟩

lemma mem_descPriorities {n : Nat} {cp : Int} {i : Nat} (h : i ∈ descPriorities n cp) :
    cp < (i : Int) ∧ i < n := by
  unfold descPriorities at h
  simp only [List.mem_filter, List.mem_reverse, List.mem_range, decide_eq_true_eq] at h
  exact ⟨h.2, h.1⟩

lemma schedSelect_spec {k : Kernel} {cp : Int} {i : Nat} {t : task_t}
    (h : schedSelect k cp = some (i, t)) :
    cp < (i : Int) ∧ i < k.numPriorities ∧ t ∈ k.tasksReady.getD i [] := by
  obtain ⟨h1, h2⟩ := schedScan_eq_some h
  obtain ⟨h3, h4⟩ := mem_descPriorities h1
  exact ⟨h3, h4, h2⟩

lemma wf_schedDispatch {k : Kernel} (h : WF k) {i : Nat} {t : task_t}
    (ht : t ∈ k.tasksReady.getD i []) : WF (schedDispatch k i t) := by
  have hv : ∀ x ∈ (k.tasksReady.getD i []).tail ++ [t],
      x ∈ k.tasksReady.getD i [] ∨ x.priority = i := by
    intro x hx
    rcases List.mem_append.mp hx with hin | hone
    · exact Or.inl ((List.tail_sublist _).subset hin)
    · simp at hone
      subst hone
      exact Or.inl ht
  have h2 := wf_set_insert h i _ hv
  exact ⟨h2.1, h2.2⟩

lemma wf_librertos_sched {k : Kernel} (h : WF k) (coop : Bool)
    (run : task_t → Kernel → Kernel) (hrun : ∀ t k0, WF k0 → WF (run t k0)) :
    WF (librertos_sched coop run k).2 := by
  unfold librertos_sched
  dsimp only
  split
  · exact h
  · cases hs : schedSelect k (currentPriority k) with
    | none => exact h
    | some x =>
      obtain ⟨i, t⟩ := x
      dsimp only
      have h1 := wf_schedDispatch h (schedSelect_spec hs).2.2
      have h2 := hrun t _ h1
      exact ⟨h2.1, h2.2⟩

theorem reachable_wf {k : Kernel} (h : Reachable k) : WF k := by
  induction h with
  | init n => exact wf_librertos_init n
  | create p id hr hc ih => exact wf_librertos_create_task ih hc
  | suspend arg hr hs ih => exact wf_task_suspend ih hs
  | resume t hr ih => exact wf_task_resume ih t
  | tick hr ih => exact wf_librertos_tick_interrupt ih
  | schedDone coop run hr hrun ih => exact wf_librertos_sched ih coop run hrun
  | dispatch i t hr hs ih => exact wf_schedDispatch ih (schedSelect_spec hs).2.2
  | qwrite q item hr ih => exact wf_QueueWrite_kernel ih q item
  | qread q hr ih => exact wf_QueueRead_kernel ih q
  | qpendRead q ticks hr ih => exact wf_QueuePendRead_kernel ih q ticks
  | qpendWrite q ticks hr ih => exact wf_QueuePendWrite_kernel ih q ticks

lemma isSome_iff_currentPriority {k : Kernel} :
    k.currentTask.isSome = true ↔ 0 ≤ currentPriority k := by
  unfold currentPriority
  cases k.currentTask <;> simp

/-- Claim C3: in every reachable kernel state, `librertos_sched` never
selects (and runs) a task whose priority is less than or equal to the
priority of the currently running task, and when `KERNEL_MODE` is
cooperative it selects no task at all (returning with the state unchanged)
while `current_task` is non-null. -/
theorem c3_sched_never_lower_priority (k : Kernel) (coop : Bool)
    (run : task_t → Kernel → Kernel) (h : Reachable k) :
    (∀ t ∈ (librertos_sched coop run k).1, currentPriority k < (t.priority : Int)) ∧
    (coop = true → k.currentTask.isSome = true → librertos_sched coop run k = ([], k)) := by
  have hwf := reachable_wf h
  constructor
  · intro t ht
    unfold librertos_sched at ht
    dsimp only at ht
    split at ht
    · simp at ht
    · cases hs : schedSelect k (currentPriority k) with
      | none => rw [hs] at ht; simp at ht
      | some x =>
        obtain ⟨i, t'⟩ := x
        rw [hs] at ht
        simp only [List.mem_singleton] at ht
        subst ht
        obtain ⟨h1, h2, h3⟩ := schedSelect_spec hs
        have h4 := hwf.2 i h2 t h3
        omega
  · intro hc hsome
    unfold librertos_sched
    dsimp only
    rw [if_pos ⟨hc, isSome_iff_currentPriority.mp hsome⟩]

/-- Witness for C3: a reachable state (two tasks created, the priority-1 task
dispatched and running) in which a cooperative-mode `librertos_sched` call
selects nothing and leaves the state unchanged. -/
theorem c3_sched_never_lower_priority_witness :
    librertos_sched true (fun _ x => x) (schedDispatch kTwoTasks 1 ⟨1, 1⟩) =
      ([], schedDispatch kTwoTasks 1 ⟨1, 1⟩) := by
  have h1 : librertos_create_task 0 0 (librertos_init 2) = some kOneTask := by decide
  have h2 : librertos_create_task 1 1 kOneTask = some kTwoTasks := by decide
  have h3 : schedSelect kTwoTasks (currentPriority kTwoTasks) = some (1, ⟨1, 1⟩) := by
    decide
  exact (c3_sched_never_lower_priority _ true (fun _ x => x)
    (Reachable.dispatch 1 ⟨1, 1⟩
      (Reachable.create 1 1 (Reachable.create 0 0 (Reachable.init 2) h1) h2) h3)).2
    rfl (by decide)

/-- Claim C5 counterexample: with no task running (`current_priority == -1`)
and tasks ready at priorities 1 and 0 — both strictly higher than the
interrupted level — a single `librertos_sched` call dispatches only the
priority-1 task (which suspends itself) and then returns even though the
priority-0 task is still ready and selectable: the call does not continue
dispatching until no strictly higher-priority ready work remains. -/
theorem c5_counterexample :
    (librertos_sched false runSelfSuspend kTwoTasks).1 = [⟨1, 1⟩] ∧
    schedSelect (librertos_sched false runSelfSuspend kTwoTasks).2
      (currentPriority kTwoTasks) = some (0, ⟨0, 0⟩) := by
  constructor
  · rfl
  · rfl

/-- Claim C5 (amended): a single `librertos_sched` call dispatches at most
one task — the first ready task found above the interrupted priority — and
returns right after that task's function returns, restoring `current_task`;
it dispatches nothing exactly when cooperative mode has a running task or no
ready task of strictly higher priority exists.  (Re-checking for further
higher-priority work is left to the next `librertos_sched` call, per the
source comment at its dispatch `return`.) -/
theorem c5_sched_single_dispatch (coop : Bool) (run : task_t → Kernel → Kernel)
    (k : Kernel) :
    (librertos_sched coop run k).1.length ≤ 1 ∧
    ((librertos_sched coop run k).1 = [] ↔
      ((coop = true ∧ k.currentTask.isSome = true) ∨
        schedSelect k (currentPriority k) = none)) ∧
    (librertos_sched coop run k).2.currentTask = k.currentTask := by
  unfold librertos_sched
  dsimp only
  split
  · next hcp =>
    refine ⟨by simp, ?_, rfl⟩
    simp only [true_iff]
    exact Or.inl ⟨hcp.1, isSome_iff_currentPriority.mpr hcp.2⟩
  · next hncp =>
    cases hs : schedSelect k (currentPriority k) with
    | none => exact ⟨by simp, by simp, rfl⟩
    | some x =>
      obtain ⟨i, t⟩ := x
      refine ⟨by simp, ?_, rfl⟩
      simp only [List.cons_ne_nil, false_iff]
      rintro (⟨h1, h2⟩ | h3)
      · exact hncp ⟨h1, isSome_iff_currentPriority.mp h2⟩
      · simp at h3

/-- Claim C10: `task_suspend(NULL)` requires a running task: when
`current_task` is NULL the call dereferences a null task pointer (modelled as
the faulting result `none`) instead of failing gracefully or being a
no-op. -/
theorem c10_suspend_null_faults (k : Kernel) (h : k.currentTask = none) :
    task_suspend none k = none := by
  simp [task_suspend, h]

theorem c10_suspend_null_faults_witness :
    task_suspend none (librertos_init 4) = none :=
  c10_suspend_null_faults (librertos_init 4) rfl

/-- Claim C4 counterexample: in `sPended` the pended task's wake deadline (5)
is already past, yet `librertos_tick_interrupt` only advances the tick from
10 to 11, leaves the task on the wait list, and does not put it back on the
ready list of its priority: the tick interrupt performs no timeout expiry
processing. -/
theorem c4_counterexample :
    (tickSys sPended).kernel.tick = 11 ∧
    (tickSys sPended).q.list_read = [⟨⟨0, 0⟩, some 5⟩] ∧
    ¬ ((⟨0, 0⟩ : task_t) ∈ (tickSys sPended).kernel.tasksReady.getD (0 : Nat) []) := by
  refine ⟨rfl, rfl, ?_⟩
  decide

/-- Claim C4 (amended): each `librertos_tick_interrupt` call increments the
kernel tick counter and changes nothing else — it touches no task list and no
queue, so no pended task is moved anywhere (the delayed-task expiry mechanism
is not part of this core). -/
theorem c4_tick_only_increments (s : Sys) :
    (tickSys s).kernel.tick = s.kernel.tick + 1 ∧
    (tickSys s).kernel.currentTask = s.kernel.currentTask ∧
    (tickSys s).kernel.tasksReady = s.kernel.tasksReady ∧
    (tickSys s).kernel.tasksSuspended = s.kernel.tasksSuspended ∧
    (tickSys s).q = s.q :=
  ⟨rfl, rfl, rfl, rfl, rfl⟩

/-- Claim C8: `mutex_lock` succeeds exactly when `count` is 0 (setting it to
1); on states with `count <= 1` (all states produced by `mutex_init`,
`mutex_lock` and `mutex_unlock`) `mutex_unlock` succeeds exactly when `count`
is 1 (clearing it); lock-then-unlock restores the initial state; unlocking an
unlocked mutex fails and leaves it unchanged (so repeated unlocks all fail);
`mutex_islocked` reports `count`; and the spec's concrete mutex scenario
holds. -/
theorem c8_mutex_lock_unlock (m : mutex_t) (hm : m.count ≤ 1) :
    ((mutex_lock m).1 = true ↔ m.count = 0) ∧
    ((mutex_lock m).1 = true → (mutex_lock m).2.count = 1) ∧
    ((mutex_unlock m).1 = true ↔ m.count = 1) ∧
    ((mutex_unlock m).1 = true → (mutex_unlock m).2.count = 0) ∧
    (m.count = 0 → mutex_unlock (mutex_lock m).2 = (true, m)) ∧
    (m.count = 0 → (mutex_unlock m).1 = false ∧ (mutex_unlock m).2 = m) ∧
    mutex_islocked m = m.count ∧
    ((mutex_lock mutex_init).1 = true ∧
      mutex_islocked (mutex_lock mutex_init).2 = 1 ∧
      (mutex_lock (mutex_lock mutex_init).2).1 = false ∧
      (mutex_unlock (mutex_lock mutex_init).2).1 = true ∧
      (mutex_unlock (mutex_unlock (mutex_lock mutex_init).2).2).1 = false ∧
      mutex_islocked (mutex_unlock (mutex_lock mutex_init).2).2 = 0) := by
  obtain ⟨c⟩ := m
  change c ≤ 1 at hm
  have hc : c = 0 ∨ c = 1 := by omega
  rcases hc with rfl | rfl <;> decide

/-- Witness for C8: the theorem applied to the freshly initialized mutex. -/
theorem c8_mutex_lock_unlock_witness :
    mutex_init.count ≤ 1 ∧
    (((mutex_lock mutex_init).1 = true ↔ mutex_init.count = 0) ∧
      ((mutex_lock mutex_init).1 = true → (mutex_lock mutex_init).2.count = 1) ∧
      ((mutex_unlock mutex_init).1 = true ↔ mutex_init.count = 1) ∧
      ((mutex_unlock mutex_init).1 = true → (mutex_unlock mutex_init).2.count = 0) ∧
      (mutex_init.count = 0 → mutex_unlock (mutex_lock mutex_init).2 = (true, mutex_init)) ∧
      (mutex_init.count = 0 →
        (mutex_unlock mutex_init).1 = false ∧ (mutex_unlock mutex_init).2 = mutex_init) ∧
      mutex_islocked mutex_init = mutex_init.count ∧
      ((mutex_lock mutex_init).1 = true ∧
        mutex_islocked (mutex_lock mutex_init).2 = 1 ∧
        (mutex_lock (mutex_lock mutex_init).2).1 = false ∧
        (mutex_unlock (mutex_lock mutex_init).2).1 = true ∧
        (mutex_unlock (mutex_unlock (mutex_lock mutex_init).2).2).1 = false ∧
        mutex_islocked (mutex_unlock (mutex_lock mutex_init).2).2 = 0)) :=
  ⟨by decide, c8_mutex_lock_unlock mutex_init (by decide)⟩

lemma queueReadReserve_none_iff (q : queue_t) :
    queueReadReserve q = none ↔ q.used = 0 := by
  unfold queueReadReserve
  split <;> simp_all

lemma queueWriteReserve_none_iff (q : queue_t) :
    queueWriteReserve q = none ↔ q.free = 0 := by
  unfold queueWriteReserve
  split <;> simp_all

lemma QueueRead_of_used_zero (s : Sys) (h : s.q.used = 0) :
    QueueRead s = (false, [], s) := by
  unfold QueueRead QueueReadT
  rw [(queueReadReserve_none_iff s.q).mpr h]

lemma QueueWrite_of_free_zero (s : Sys) (item : List Nat) (h : s.q.free = 0) :
    QueueWrite s item = (false, s) := by
  unfold QueueWrite QueueWriteT
  rw [(queueWriteReserve_none_iff s.q).mpr h]

lemma QueueRead_fst_false_iff (s : Sys) : (QueueRead s).1 = false ↔ s.q.used = 0 := by
  unfold QueueRead QueueReadT
  cases hr : queueReadReserve s.q with
  | none => simpa using (queueReadReserve_none_iff s.q).mp hr
  | some x =>
    obtain ⟨q1, pos, lock⟩ := x
    have hne : ¬ s.q.used = 0 := by
      intro h0
      rw [(queueReadReserve_none_iff s.q).mpr h0] at hr
      exact absurd hr (by simp)
    simpa using hne

lemma QueueWrite_fst_false_iff (s : Sys) (item : List Nat) :
    (QueueWrite s item).1 = false ↔ s.q.free = 0 := by
  unfold QueueWrite QueueWriteT
  cases hr : queueWriteReserve s.q with
  | none => simpa using (queueWriteReserve_none_iff s.q).mp hr
  | some x =>
    obtain ⟨q1, pos, lock⟩ := x
    have hne : ¬ s.q.free = 0 := by
      intro h0
      rw [(queueWriteReserve_none_iff s.q).mpr h0] at hr
      exact absurd hr (by simp)
    simpa using hne

/-- Claim C7 (amended): `QueueReadPend`/`QueueWritePend` return the result of
the single non-blocking attempt made at call time.  When that attempt fails
they pend the current task (with a non-zero timeout) and still return the
failed first attempt's result: the re-attempt happens only when the caller
invokes the operation again after being unblocked, not inside this call. -/
theorem c7_pend_reports_first_attempt (s : Sys) (ticks : Nat) (item : List Nat) :
    (QueueReadPend s ticks).1 = (QueueRead s).1 ∧
    (QueueWritePend s item ticks).1 = (QueueWrite s item).1 ∧
    (s.q.used = 0 → QueueReadPend s ticks = (false, [], QueuePendRead s ticks)) ∧
    (s.q.free = 0 → QueueWritePend s item ticks = (false, QueuePendWrite s ticks)) := by
  refine ⟨?_, ?_, ?_, ?_⟩
  · unfold QueueReadPend
    by_cases hb : (QueueRead s).1 = false <;> simp [hb]
  · unfold QueueWritePend
    by_cases hb : (QueueWrite s item).1 = false <;> simp [hb]
  · intro h
    unfold QueueReadPend
    rw [QueueRead_of_used_zero s h]
    rfl
  · intro h
    unfold QueueWritePend
    rw [QueueWrite_of_free_zero s item h]
    rfl

/-- Claim C7 counterexample: on the empty queue, `QueueReadPend` with a
5-tick timeout pends the current task on `list_read` and returns `false`
(the first attempt's failure).  After the queue is written — the very event
that wakes the pended task — a re-attempted read succeeds and yields the
item, so the pend call's reported result is not the result of a post-wake
re-attempt. -/
theorem c7_counterexample :
    (QueueReadPend sEmptyQueue 5).1 = false ∧
    ((QueueReadPend sEmptyQueue 5).2.2).q.list_read = [⟨⟨0, 0⟩, some 5⟩] ∧
    (QueueRead ((QueueWrite (QueueReadPend sEmptyQueue 5).2.2 [7]).2)).1 = true ∧
    (QueueRead ((QueueWrite (QueueReadPend sEmptyQueue 5).2.2 [7]).2)).2.1 = [7] := by
  decide

/-- Claim C9 counterexample: on the same queue state, the action sequence of
a successful `QueueRead` is not the action sequence of a successful
`QueueWrite`: `QueueWrite` acquires the scheduler lock before exiting the
critical section for the copy, while `QueueRead` acquires it only after the
copy, upon re-entering the critical section — the reserve-copy-publish-
unblock sequence does not occur in the same lock order in both operations. -/
theorem c9_counterexample :
    (QueueWriteT sHalfFull [7]).2.2 =
      [Act.critEnter, Act.reserve, Act.schedLock, Act.critExit, Act.copy,
       Act.critEnter, Act.publish, Act.critExit, Act.schedUnlock] ∧
    (QueueReadT sHalfFull).2.2.2 =
      [Act.critEnter, Act.reserve, Act.critExit, Act.copy, Act.critEnter,
       Act.publish, Act.schedLock, Act.critExit, Act.schedUnlock] ∧
    (QueueReadT sHalfFull).2.2.2 ≠ (QueueWriteT sHalfFull [7]).2.2 := by
  decide

/-- Claim C9 (amended): on any success path with no concurrent operation in
flight and no waiters, `QueueRead` mirrors `QueueWrite` step for step — same
reserve / copy / publish / unblock structure, with `used`, `r_lock` and the
head pointer in place of `free`, `w_lock` and the tail pointer — except for
the scheduler lock: `QueueWrite` acquires it before exiting the critical
section for the copy, `QueueRead` acquires it after the copy, upon
re-entering the critical section. -/
theorem c9_read_mirrors_write_except_schedlock (s : Sys) (item : List Nat)
    (hwf : s.q.free ≠ 0) (hwl : s.q.w_lock = 0) (hlr : s.q.list_read = [])
    (hru : s.q.used ≠ 0) (hrl : s.q.r_lock = 0) (hlw : s.q.list_write = []) :
    (QueueWriteT s item).2.2 =
      [Act.critEnter, Act.reserve, Act.schedLock, Act.critExit, Act.copy,
       Act.critEnter, Act.publish, Act.critExit, Act.schedUnlock] ∧
    (QueueReadT s).2.2.2 =
      [Act.critEnter, Act.reserve, Act.critExit, Act.copy, Act.critEnter,
       Act.publish, Act.schedLock, Act.critExit, Act.schedUnlock] ∧
    ((QueueWrite s item).2).q.free = s.q.free - 1 ∧
    ((QueueWrite s item).2).q.used = (s.q.used + 1) % 256 ∧
    ((QueueWrite s item).2).q.w_lock = 0 ∧
    ((QueueRead s).2.2).q.used = s.q.used - 1 ∧
    ((QueueRead s).2.2).q.free = (s.q.free + 1) % 256 ∧
    ((QueueRead s).2.2).q.r_lock = 0 := by
  unfold QueueWrite QueueRead QueueWriteT QueueReadT queueWriteReserve queueReadReserve
    queueWriteCommit queueReadCommit unblockReadWaiters unblockWriteWaiters
  simp [hwf, hwl, hlr, hru, hrl, hlw]

/-- Witness for the amended C9: the trace and counter equalities at the
concrete state `sHalfFull`. -/
theorem c9_read_mirrors_write_except_schedlock_witness :
    sHalfFull.q.free ≠ 0 ∧ sHalfFull.q.w_lock = 0 ∧ sHalfFull.q.list_read = [] ∧
    sHalfFull.q.used ≠ 0 ∧ sHalfFull.q.r_lock = 0 ∧ sHalfFull.q.list_write = [] ∧
    ((QueueWriteT sHalfFull [7]).2.2 =
      [Act.critEnter, Act.reserve, Act.schedLock, Act.critExit, Act.copy,
       Act.critEnter, Act.publish, Act.critExit, Act.schedUnlock] ∧
    (QueueReadT sHalfFull).2.2.2 =
      [Act.critEnter, Act.reserve, Act.critExit, Act.copy, Act.critEnter,
       Act.publish, Act.schedLock, Act.critExit, Act.schedUnlock] ∧
    ((QueueWrite sHalfFull [7]).2).q.free = sHalfFull.q.free - 1 ∧
    ((QueueWrite sHalfFull [7]).2).q.used = (sHalfFull.q.used + 1) % 256 ∧
    ((QueueWrite sHalfFull [7]).2).q.w_lock = 0 ∧
    ((QueueRead sHalfFull).2.2).q.used = sHalfFull.q.used - 1 ∧
    ((QueueRead sHalfFull).2.2).q.free = (sHalfFull.q.free + 1) % 256 ∧
    ((QueueRead sHalfFull).2.2).q.r_lock = 0) :=
  ⟨by decide, by decide, by decide, by decide, by decide, by decide,
   c9_read_mirrors_write_except_schedlock sHalfFull [7] (by decide) (by decide)
     (by decide) (by decide) (by decide) (by decide)⟩

/-- Claim C6: `QueueWrite` on a full queue (`free == 0`) and `QueueRead` on
an empty queue (`used == 0`) return the failure boolean and leave the whole
state (every queue field including the buffer) unchanged; and the length-2
boundary scenario holds: writes A, B succeed, write C fails, read yields A,
the retried write C succeeds, reads yield B then C, and the next read
fails. -/
theorem c6_queue_full_empty_boundaries :
    (∀ (s : Sys) (item : List Nat), s.q.free = 0 → QueueWrite s item = (false, s)) ∧
    (∀ s : Sys, s.q.used = 0 → QueueRead s = (false, [], s)) ∧
    ((QueueWrite sLen2 [10]).1 = true ∧
      (QueueWrite sWroteA [11]).1 = true ∧
      (QueueWrite sWroteAB [12]).1 = false ∧
      (QueueWrite sWroteAB [12]).2 = sWroteAB ∧
      (QueueRead sWroteAB).1 = true ∧ (QueueRead sWroteAB).2.1 = [10] ∧
      (QueueWrite sReadA [12]).1 = true ∧
      (QueueRead sWroteC).1 = true ∧ (QueueRead sWroteC).2.1 = [11] ∧
      (QueueRead sReadB).1 = true ∧ (QueueRead sReadB).2.1 = [12] ∧
      (QueueRead sReadC).1 = false ∧ (QueueRead sReadC).2.2 = sReadC) := by
  refine ⟨fun s item h => QueueWrite_of_free_zero s item h,
          fun s h => QueueRead_of_used_zero s h,
          ?_, ?_, ?_, ?_, ?_, ?_, ?_, ?_, ?_, ?_, ?_, ?_, ?_⟩
  · decide
  · decide
  · decide
  · rfl
  · decide
  · decide
  · decide
  · decide
  · decide
  · decide
  · decide
  · decide
  · rfl

/-- Witness for C6: the failure branches applied at the scenario's own full
and empty states. -/
theorem c6_queue_full_empty_boundaries_witness :
    QueueWrite sWroteAB [12] = (false, sWroteAB) ∧
    QueueRead sReadC = (false, [], sReadC) :=
  ⟨c6_queue_full_empty_boundaries.1 sWroteAB [12] rfl,
   c6_queue_full_empty_boundaries.2.1 sReadC rfl⟩

lemma unblockReadWaiters_nil (q : queue_t) (k : Kernel) (h : q.list_read = []) :
    unblockReadWaiters q k = (q, k) := by
  simp [unblockReadWaiters, h]

lemma unblockWriteWaiters_nil (q : queue_t) (k : Kernel) (h : q.list_write = []) :
    unblockWriteWaiters q k = (q, k) := by
  simp [unblockWriteWaiters, h]

/-- The full effect of a successful `QueueWrite` with no concurrent writer in
flight (`w_lock == 0`) and no read-waiters: reserve the tail slot, copy the
item, publish, leave the kernel as found (lock and unlock cancel). -/
lemma QueueWrite_success_eq (s : Sys) (x : List Nat)
    (hfree : s.q.free ≠ 0) (hwl : s.q.w_lock = 0) (hlr : s.q.list_read = []) :
    QueueWrite s x =
      (true,
       ⟨s.kernel,
        { s.q with
          tail_ptr := if s.q.tail_ptr + s.q.item_size > s.q.buff_end_ptr then 0
                      else s.q.tail_ptr + s.q.item_size
          w_lock := 0
          free := s.q.free - 1
          used := (s.q.used + 1 % 256) % 256
          buff := writeBytesN s.q.buff s.q.tail_ptr s.q.item_size x }⟩) := by
  obtain ⟨k, q⟩ := s
  dsimp only at hfree hwl hlr
  unfold QueueWrite QueueWriteT queueWriteReserve queueWriteCommit
  dsimp only
  rw [if_pos hfree]
  dsimp only
  rw [hwl]
  rw [if_pos rfl]
  rw [unblockReadWaiters_nil _ _ (by simpa using hlr)]
  rfl

/-- The full effect of a successful `QueueRead` with no concurrent reader in
flight (`r_lock == 0`) and no write-waiters. -/
lemma QueueRead_success_eq (s : Sys)
    (hused : s.q.used ≠ 0) (hrl : s.q.r_lock = 0) (hlw : s.q.list_write = []) :
    QueueRead s =
      (true,
       readBytes s.q.buff s.q.head_ptr s.q.item_size,
       ⟨s.kernel,
        { s.q with
          head_ptr := if s.q.head_ptr + s.q.item_size > s.q.buff_end_ptr then 0
                      else s.q.head_ptr + s.q.item_size
          r_lock := 0
          used := s.q.used - 1
          free := (s.q.free + 1 % 256) % 256 }⟩) := by
  obtain ⟨k, q⟩ := s
  dsimp only at hused hrl hlw
  unfold QueueRead QueueReadT queueReadReserve queueReadCommit
  dsimp only
  rw [if_pos hused]
  dsimp only
  rw [hrl]
  rw [if_pos rfl]
  rw [unblockWriteWaiters_nil _ _ (by simpa using hlw)]
  rfl

lemma slot_advance (cap isz b : Nat) (hb : b < cap) (hs : 1 ≤ isz) :
    (if b * isz + isz > (cap - 1) * isz then 0 else b * isz + isz) =
      ((b + 1) % cap) * isz := by
  by_cases hE : b = cap - 1
  · subst hE
    rw [if_pos (Nat.lt_add_of_pos_right hs)]
    have h1 : cap - 1 + 1 = cap := by omega
    rw [h1, Nat.mod_self, Nat.zero_mul]
  · have h1 : b + 1 < cap := by omega
    have h2 := Nat.mul_le_mul_right isz (show b + 1 ≤ cap - 1 by omega)
    rw [Nat.succ_mul] at h2
    rw [if_neg (Nat.not_lt.mpr h2), Nat.mod_eq_of_lt h1, Nat.succ_mul]

lemma add_mod_ne (a : Nat) {j n cap : Nat} (hj : j < n) (hn : n < cap) :
    (a + j) % cap ≠ (a + n) % cap := by
  intro he
  have hd : cap ∣ (a + n) - (a + j) :=
    (Nat.modEq_iff_dvd' (by omega)).mp he
  have h1 : (a + n) - (a + j) = n - j := by omega
  rw [h1] at hd
  have h2 := Nat.le_of_dvd (by omega) hd
  omega

lemma slots_disjoint {i1 i2 : Nat} (isz : Nat) (hne : i1 ≠ i2) :
    i1 * isz + isz ≤ i2 * isz ∨ i2 * isz + isz ≤ i1 * isz := by
  rcases Nat.lt_or_ge i1 i2 with hlt | hge
  · left
    have := Nat.mul_le_mul_right isz (show i1 + 1 ≤ i2 by omega)
    rw [Nat.succ_mul] at this
    exact this
  · right
    have := Nat.mul_le_mul_right isz (show i2 + 1 ≤ i1 by omega)
    rw [Nat.succ_mul] at this
    exact this

lemma readBytes_writeBytesN_same (f : Nat → Nat) (off n : Nat) (item : List Nat)
    (h : item.length = n) : readBytes (writeBytesN f off n item) off n = item := by
  unfold readBytes writeBytesN
  apply List.ext_getElem
  · simp [h]
  · intro i h1 h2
    simp only [List.getElem_map, List.getElem_range]
    rw [if_pos (by constructor <;> omega)]
    rw [Nat.add_sub_cancel_left]
    exact List.getD_eq_getElem item 0 (by omega)

lemma readBytes_writeBytesN_other (f : Nat → Nat) (off1 n1 off2 n2 : Nat)
    (item : List Nat) (h : off1 + n1 ≤ off2 ∨ off2 + n2 ≤ off1) :
    readBytes (writeBytesN f off2 n2 item) off1 n1 = readBytes f off1 n1 := by
  unfold readBytes writeBytesN
  apply List.map_congr_left
  intro i hi
  rw [List.mem_range] at hi
  rw [if_neg (by omega)]

lemma rel_init (cap isz : Nat) (buff : Nat → Nat) (hcap : 1 ≤ cap) :
    QRel cap isz 0 [] (QueueInit buff cap isz) := by
  unfold QRel QueueInit
  refine ⟨rfl, by simp, rfl, rfl, rfl, rfl, by simp, ?_, by omega, by simp, rfl, rfl, ?_⟩
  · simp [Nat.mod_eq_of_lt hcap]
  · intro j hj
    simp at hj

lemma QueueWrite_step {cap isz hIdx : Nat} {ys : List (List Nat)} (s : Sys)
    (x : List Nat) (hcap : cap ≤ 255) (hs : 1 ≤ isz) (hx : x.length = isz)
    (hys : ys.length < cap) (hR : QRel cap isz hIdx ys s.q) :
    (QueueWrite s x).1 = true ∧
    (QueueWrite s x).2.kernel = s.kernel ∧
    QRel cap isz hIdx (ys ++ [x]) ((QueueWrite s x).2).q := by
  obtain ⟨h1, h2, h3, h4, h5, h6, h7, h8, h9, h10, h11, h12, h13⟩ := hR
  have hcap0 : 0 < cap := by omega
  have hfree : s.q.free ≠ 0 := by
    rw [h2]
    omega
  rw [QueueWrite_success_eq s x hfree h4 h11]
  refine ⟨rfl, rfl, ?_⟩
  unfold QRel
  dsimp only
  refine ⟨h1, ?_, ?_, rfl, h5, h6, h7, ?_, h9, ?_, h11, h12, ?_⟩
  · rw [List.length_append, h2]
    simp
    omega
  · rw [List.length_append, h3]
    simp
    omega
  · rw [List.length_append, h8, h1, h6,
      slot_advance cap isz ((hIdx + ys.length) % cap) (Nat.mod_lt _ hcap0) hs,
      Nat.mod_add_mod]
    simp [Nat.add_assoc]
  · rw [List.length_append]
    simp
    omega
  · intro j hj
    rw [List.length_append] at hj
    simp only [List.length_singleton] at hj
    rw [h8, h1]
    by_cases hjn : j = ys.length
    · subst hjn
      rw [readBytes_writeBytesN_same s.q.buff _ isz x hx]
      rw [List.getD_eq_getElem?_getD, List.getElem?_append_right (le_refl _)]
      simp
    · have hjlt : j < ys.length := by omega
      have hne := add_mod_ne hIdx hjlt hys
      rw [readBytes_writeBytesN_other s.q.buff _ isz _ isz x
        (slots_disjoint isz (fun he => hne he))]
      rw [List.getD_eq_getElem?_getD, List.getElem?_append_left hjlt,
        ← List.getD_eq_getElem?_getD]
      exact h13 j hjlt

lemma QueueRead_step {cap isz hIdx : Nat} {y : List Nat} {ys : List (List Nat)} (s : Sys)
    (hcap : cap ≤ 255) (hs : 1 ≤ isz) (hR : QRel cap isz hIdx (y :: ys) s.q) :
    (QueueRead s).1 = true ∧
    (QueueRead s).2.1 = y ∧
    (QueueRead s).2.2.kernel = s.kernel ∧
    QRel cap isz ((hIdx + 1) % cap) ys ((QueueRead s).2.2).q := by
  obtain ⟨h1, h2, h3, h4, h5, h6, h7, h8, h9, h10, h11, h12, h13⟩ := hR
  have hcap0 : 0 < cap := by omega
  have hused : s.q.used ≠ 0 := by
    rw [h3]
    simp
  rw [QueueRead_success_eq s hused h5 h12]
  rw [List.length_cons] at h2 h3 h8 h10
  refine ⟨rfl, ?_, rfl, ?_⟩
  · have h0 := h13 0 (by simp)
    rw [h7, h1]
    simpa [Nat.mod_eq_of_lt h9] using h0
  · unfold QRel
    dsimp only
    refine ⟨h1, ?_, ?_, h4, rfl, h6, ?_, ?_, Nat.mod_lt _ hcap0, by omega, h11, h12, ?_⟩
    · rw [h2]
      omega
    · rw [h3]
      omega
    · rw [h7, h1, h6, slot_advance cap isz hIdx h9 hs]
    · rw [h8, Nat.mod_add_mod]
      congr 2
      omega
    · intro j hj
      rw [Nat.mod_add_mod]
      have heq : (hIdx + 1 + j) = hIdx + (j + 1) := by omega
      rw [heq]
      exact h13 (j + 1) (by simp; omega)

lemma writeAll_rel (cap isz : Nat) (hcap : cap ≤ 255) (hs : 1 ≤ isz)
    (xs : List (List Nat)) :
    ∀ (hIdx : Nat) (ys : List (List Nat)) (s : Sys),
      ys.length + xs.length ≤ cap → (∀ x ∈ xs, x.length = isz) →
      QRel cap isz hIdx ys s.q →
      (writeAll s xs).1 = true ∧
      (writeAll s xs).2.kernel = s.kernel ∧
      QRel cap isz hIdx (ys ++ xs) ((writeAll s xs).2).q := by
  induction xs with
  | nil =>
    intro hIdx ys s hlen hx hR
    exact ⟨rfl, rfl, by simpa using hR⟩
  | cons x xs ih =>
    intro hIdx ys s hlen hx hR
    obtain ⟨hw1, hw2, hw3⟩ :=
      QueueWrite_step s x hcap hs (hx x (by simp)) (by simp at hlen; omega) hR
    obtain ⟨ha1, ha2, ha3⟩ :=
      ih hIdx (ys ++ [x]) (QueueWrite s x).2
        (by simp at hlen ⊢; omega)
        (fun z hz => hx z (by simp [hz]))
        hw3
    unfold writeAll
    refine ⟨?_, ?_, ?_⟩
    · dsimp only
      rw [hw1, ha1]
      rfl
    · dsimp only
      rw [ha2, hw2]
    · dsimp only
      rw [List.append_assoc] at ha3
      simpa using ha3

lemma readN_rel (cap isz : Nat) (hcap : cap ≤ 255) (hs : 1 ≤ isz)
    (ys : List (List Nat)) :
    ∀ (hIdx : Nat) (s : Sys), QRel cap isz hIdx ys s.q →
      (readN s ys.length).1 = ys ∧
      (readN s ys.length).2.kernel = s.kernel ∧
      ∃ hF, QRel cap isz hF [] ((readN s ys.length).2).q := by
  induction ys with
  | nil =>
    intro hIdx s hR
    exact ⟨rfl, rfl, hIdx, hR⟩
  | cons y ys ih =>
    intro hIdx s hR
    obtain ⟨hr1, hr2, hr3, hr4⟩ := QueueRead_step s hcap hs hR
    obtain ⟨ha1, ha2, ha3⟩ := ih ((hIdx + 1) % cap) (QueueRead s).2.2 hr4
    rw [List.length_cons]
    unfold readN
    refine ⟨?_, ?_, ?_⟩
    · dsimp only
      rw [hr2, ha1]
    · dsimp only
      rw [ha2, hr3]
    · dsimp only
      exact ha3

/-- Claim C2: on a freshly initialized queue of capacity `cap` (fitting in
`len_t`) and item size `isz`, writing any sequence of at most `cap` items of
size `isz` succeeds in full, a matching number of `QueueRead` calls then
returns exactly those items in writing order, and the next read fails. -/
theorem c2_queue_fifo (cap isz : Nat) (xs : List (List Nat)) (k : Kernel)
    (buff : Nat → Nat) (hcap1 : 1 ≤ cap) (hcap : cap ≤ 255) (hs : 1 ≤ isz)
    (hxs : xs.length ≤ cap) (hx : ∀ x ∈ xs, x.length = isz) :
    (writeAll ⟨k, QueueInit buff cap isz⟩ xs).1 = true ∧
    (readN (writeAll ⟨k, QueueInit buff cap isz⟩ xs).2 xs.length).1 = xs ∧
    (QueueRead (readN (writeAll ⟨k, QueueInit buff cap isz⟩ xs).2 xs.length).2).1 =
      false := by
  have h0 := rel_init cap isz buff hcap1
  obtain ⟨hw1, hw2, hw3⟩ :=
    writeAll_rel cap isz hcap hs xs 0 [] ⟨k, QueueInit buff cap isz⟩
      (by simpa using hxs) hx h0
  rw [List.nil_append] at hw3
  obtain ⟨hr1, hr2, hF, hrel⟩ :=
    readN_rel cap isz hcap hs xs 0 (writeAll ⟨k, QueueInit buff cap isz⟩ xs).2 hw3
  refine ⟨hw1, hr1, ?_⟩
  have hu : ((readN (writeAll ⟨k, QueueInit buff cap isz⟩ xs).2 xs.length).2).q.used = 0 := by
    simpa using hrel.2.2.1
  rw [QueueRead_of_used_zero _ hu]

/-- Witness for C2: the spec's concrete FIFO scenario — queue of length 4 and
item size 1; write 1, 2, 3; reads yield 1, 2, 3; the fourth read fails. -/
theorem c2_queue_fifo_witness :
    ((1 : Nat) ≤ 4 ∧ (4 : Nat) ≤ 255 ∧ (1 : Nat) ≤ 1 ∧
      ([[1], [2], [3]] : List (List Nat)).length ≤ 4 ∧
      (∀ x ∈ ([[1], [2], [3]] : List (List Nat)), x.length = 1)) ∧
    ((writeAll ⟨librertos_init 1, QueueInit (fun _ => 0) 4 1⟩ [[1], [2], [3]]).1 = true ∧
      (readN (writeAll ⟨librertos_init 1, QueueInit (fun _ => 0) 4 1⟩
        [[1], [2], [3]]).2 ([[1], [2], [3]] : List (List Nat)).length).1 = [[1], [2], [3]] ∧
      (QueueRead (readN (writeAll ⟨librertos_init 1, QueueInit (fun _ => 0) 4 1⟩
        [[1], [2], [3]]).2 ([[1], [2], [3]] : List (List Nat)).length).2).1 = false) :=
  ⟨⟨by decide, by decide, by decide, by decide, by decide⟩,
   c2_queue_fifo 4 1 [[1], [2], [3]] (librertos_init 1) (fun _ => 0)
     (by decide) (by decide) (by decide) (by decide) (by decide)⟩

/-- Witness for the amended C7: at the concrete empty-queue state, the pend
call returns the first attempt's (failed) result and the state produced by
`QueuePendRead`. -/
theorem c7_pend_reports_first_attempt_witness :
    (QueueReadPend sEmptyQueue 5).1 = (QueueRead sEmptyQueue).1 ∧
    QueueReadPend sEmptyQueue 5 = (false, [], QueuePendRead sEmptyQueue 5) :=
  ⟨(c7_pend_reports_first_attempt sEmptyQueue 5 [7]).1,
   (c7_pend_reports_first_attempt sEmptyQueue 5 [7]).2.2.1 rfl⟩
